import Mathlib

/-!
Verification development for the bolt.diy integration layer
(orchestration/streaming core): a shallow embedding of the
EventPublisher (in-process publish/subscribe multiplexer), the
BoltDiyClient (retrying HTTP client and SSE stream parser) and the
TaskProcessor (polling task-orchestration loop), together with proofs
of the behavioural properties stated in the specification.

Sources embedded:
- EventPublisher (subscribe / unsubscribe / publish / close) over a
  Map from task id to a Map from connection id to stream controller.
- BoltDiyClient.fetchWithRetry, and BoltDiyClient.extractEvents (the
  incremental SSE block decoder).
- TaskProcessor.processTask: the bounded poll loop with completed /
  failed / timeout / catch-all terminal branches.

External collaborators (fetch, the Supabase task store, the file
manager, JSON.parse / JSON.stringify, stream controllers) are modelled
as environment parameters: each is a value or function supplied to the
embedded code, never hard-coded, so theorems quantify over their
behaviour.
-/

namespace BoltDiy

/-! ## Event Multiplexer (EventPublisher.ts)

The source keeps a private field
subscribers : Map(taskId, Map(connectionId, ReadableStreamDefaultController)).
We model a controller as a Sink: a flag saying whether enqueue throws
(the underlying connection is gone) and the buffer of events enqueued
so far.  JS Map insertion-order semantics are modelled by association
lists: set replaces in place or appends, delete removes the entry. -/

/-- Payload handed to EventPublisher.publish in the source:
type, data (opaque JSON value, kept abstract as its serialized text)
and an ISO timestamp. -/
structure EventData where
  type : String
  data : String
  timestamp : String
  deriving DecidableEq, Repr

/-- Model of a ReadableStreamDefaultController held by the publisher:
enqueue throws exactly when failing is true; buffer records the events
enqueued so far.  The source enqueues the SSE-serialized string built
by JSON.stringify (an external platform function); the model stores
the event value itself, which the serialization determines. -/
structure Sink where
  failing : Bool
  buffer : List EventData
  deriving DecidableEq, Repr

/-- State of the private subscribers field: an association list from
task id to the inner association list from connection id to sink,
mirroring the nested JS Maps. -/
abbrev PubState := List (String × List (String × Sink))

/-- Model of Map.get on the outer subscribers map. -/
def getTask : PubState → String → Option (List (String × Sink))
  | [], _ => none
  | (t, inner) :: rest, tid => if t = tid then some inner else getTask rest tid

/-- Model of Map.set on the outer map: replace in place when the key
exists, append otherwise (JS Map insertion-order semantics). -/
def setTask : PubState → String → List (String × Sink) → PubState
  | [], tid, inner => [(tid, inner)]
  | (t, i0) :: rest, tid, inner =>
    if t = tid then (tid, inner) :: rest else (t, i0) :: setTask rest tid inner

/-- Model of Map.delete on the outer map. -/
def removeTask : PubState → String → PubState
  | [], _ => []
  | (t, i0) :: rest, tid => if t = tid then rest else (t, i0) :: removeTask rest tid

/-- Model of Map.get on an inner per-task map. -/
def getConn : List (String × Sink) → String → Option Sink
  | [], _ => none
  | (c, s) :: rest, cid => if c = cid then some s else getConn rest cid

/-- Model of Map.set on an inner per-task map. -/
def setConn : List (String × Sink) → String → Sink → List (String × Sink)
  | [], cid, s => [(cid, s)]
  | (c, s0) :: rest, cid, s =>
    if c = cid then (cid, s) :: rest else (c, s0) :: setConn rest cid s

/-- Model of Map.delete on an inner per-task map. -/
def removeConn : List (String × Sink) → String → List (String × Sink)
  | [], _ => []
  | (c, s) :: rest, cid => if c = cid then rest else (c, s) :: removeConn rest cid

/-- Model of controller.enqueue(message): throws (Except.error) when
the sink's connection is gone, otherwise appends to the buffer. -/
def enqueueSink (s : Sink) (ev : EventData) : Except String Sink :=
  if s.failing then Except.error "stream controller closed"
  else Except.ok { s with buffer := s.buffer ++ [ev] }

/-- Model of EventPublisher.subscribe: create the inner map on first use, then
inner.set(connectionId, controller). -/
def subscribe (st : PubState) (tid cid : String) (sink : Sink) : PubState :=
  match getTask st tid with
  | none => setTask st tid [(cid, sink)]
  | some inner => setTask st tid (setConn inner cid sink)

/-- Model of EventPublisher.unsubscribe: remove one sink; when the task has no
remaining sinks its subscriber set is discarded. -/
def unsubscribe (st : PubState) (tid cid : String) : PubState :=
  match getTask st tid with
  | none => st
  | some inner =>
    let inner2 := removeConn inner cid
    if inner2 = [] then removeTask st tid else setTask st tid inner2

/-- Body of the for-loop of EventPublisher.publish: each sink gets the
event via a try/catch; a throwing enqueue makes the publisher
unsubscribe that connection (delete it from the inner map) and carry
on with the remaining sinks.  Deleting the current entry of a JS Map
during iteration is safe, so the net effect is this fold. -/
def publishSinks (ev : EventData) : List (String × Sink) → List (String × Sink)
  | [] => []
  | (c, s) :: rest =>
    match enqueueSink s ev with
    | Except.ok s2 => (c, s2) :: publishSinks ev rest
    | Except.error _ => publishSinks ev rest

/-- Model of EventPublisher.publish: no subscriber set means an early return;
otherwise deliver to every sink with per-sink try/catch, removing the
failing sinks, which (through unsubscribe) discards the task's entry
when the last sink failed. -/
def publish (st : PubState) (tid : String) (ev : EventData) : PubState :=
  match getTask st tid with
  | none => st
  | some inner =>
    let inner2 := publishSinks ev inner
    if inner2 = [] then removeTask st tid else setTask st tid inner2

/-- Model of EventPublisher.close: close every sink of the task (an external
effect on the controllers, whose failures the source swallows), then
delete the task's subscriber set. -/
def close (st : PubState) (tid : String) : PubState :=
  match getTask st tid with
  | none => st
  | some _ => removeTask st tid

/-- One call into the EventPublisher, for stating invariants over
arbitrary interleavings of its operations. -/
inductive PubOp
  | subscribeOp (tid cid : String) (sink : Sink)
  | unsubscribeOp (tid cid : String)
  | publishOp (tid : String) (ev : EventData)
  | closeOp (tid : String)
  deriving DecidableEq, Repr

/-- Interpret one operation on the publisher state. -/
def applyOp (st : PubState) : PubOp → PubState
  | PubOp.subscribeOp tid cid sink => subscribe st tid cid sink
  | PubOp.unsubscribeOp tid cid => unsubscribe st tid cid
  | PubOp.publishOp tid ev => publish st tid ev
  | PubOp.closeOp tid => close st tid

/-- Run a sequence of operations from the initial (empty) subscribers
map of a freshly constructed EventPublisher. -/
def runOps (ops : List PubOp) : PubState := ops.foldl applyOp []

/-! ### Multiplexer lemmas -/

/-- Keys that survive setTask come from the old state or are the new key. -/
lemma mem_setTask {st : PubState} {tid : String} {inner : List (String × Sink)}
    {p : String × List (String × Sink)} (h : p ∈ setTask st tid inner) :
    p = (tid, inner) ∨ p ∈ st := by
  induction st with
  | nil => simp only [setTask, List.mem_singleton] at h; exact Or.inl h
  | cons q rest ih =>
    obtain ⟨t, i0⟩ := q
    by_cases ht : t = tid
    · simp [setTask, ht] at h
      rcases h with h | h
      · exact Or.inl (by simp [h])
      · exact Or.inr (by simp [h])
    · simp [setTask, ht] at h
      rcases h with h | h
      · exact Or.inr (by simp [h])
      · rcases ih h with h2 | h2
        · exact Or.inl h2
        · exact Or.inr (by simp [h2])

/-- Entries that survive removeTask come from the old state. -/
lemma mem_removeTask {st : PubState} {tid : String}
    {p : String × List (String × Sink)} (h : p ∈ removeTask st tid) : p ∈ st := by
  induction st with
  | nil => simp [removeTask] at h
  | cons q rest ih =>
    obtain ⟨t, i0⟩ := q
    by_cases ht : t = tid
    · simp only [removeTask, if_pos ht] at h
      simp [h]
    · simp only [removeTask, if_neg ht, List.mem_cons] at h
      rcases h with h | h
      · simp [h]
      · simp [ih h]

/-- setConn never produces an empty inner map. -/
lemma setConn_ne_nil (inner : List (String × Sink)) (cid : String) (s : Sink) :
    setConn inner cid s ≠ [] := by
  cases inner with
  | nil => simp [setConn]
  | cons q rest =>
    obtain ⟨c, s0⟩ := q
    by_cases hc : c = cid <;> simp [setConn, hc]

/-- The non-empty-subscriber-set invariant: every task id present in
the subscribers map is bound to at least one sink. -/
def NoEmpty (st : PubState) : Prop := ∀ p ∈ st, p.2 ≠ []

lemma noEmpty_removeTask {st : PubState} (h : NoEmpty st) (tid : String) :
    NoEmpty (removeTask st tid) := fun p hp => h p (mem_removeTask hp)

lemma noEmpty_setTask {st : PubState} (h : NoEmpty st) (tid : String)
    {inner : List (String × Sink)} (hne : inner ≠ []) :
    NoEmpty (setTask st tid inner) := by
  intro p hp
  rcases mem_setTask hp with h2 | h2
  · simpa [h2] using hne
  · exact h p h2

/-- Every single EventPublisher operation preserves the non-empty
invariant. -/
lemma noEmpty_applyOp {st : PubState} (h : NoEmpty st) (op : PubOp) :
    NoEmpty (applyOp st op) := by
  cases op with
  | subscribeOp tid cid sink =>
    simp only [applyOp, subscribe]
    cases getTask st tid with
    | none => exact noEmpty_setTask h tid (by simp)
    | some inner => exact noEmpty_setTask h tid (setConn_ne_nil inner cid sink)
  | unsubscribeOp tid cid =>
    simp only [applyOp, unsubscribe]
    cases getTask st tid with
    | none => exact h
    | some inner =>
      by_cases he : removeConn inner cid = []
      · simpa [he] using noEmpty_removeTask h tid
      · simpa [he] using noEmpty_setTask h tid he
  | publishOp tid ev =>
    simp only [applyOp, publish]
    cases getTask st tid with
    | none => exact h
    | some inner =>
      by_cases he : publishSinks ev inner = []
      · simpa [he] using noEmpty_removeTask h tid
      · simpa [he] using noEmpty_setTask h tid he
  | closeOp tid =>
    simp only [applyOp, close]
    cases getTask st tid with
    | none => exact h
    | some inner => exact noEmpty_removeTask h tid

lemma noEmpty_foldl (ops : List PubOp) :
    ∀ st : PubState, NoEmpty st → NoEmpty (ops.foldl applyOp st) := by
  induction ops with
  | nil => intro st h; exact h
  | cons op rest ih =>
    intro st h
    exact ih (applyOp st op) (noEmpty_applyOp h op)

lemma getTask_eq_none_of_not_mem {st : PubState} {tid : String}
    (h : tid ∉ st.map Prod.fst) : getTask st tid = none := by
  induction st with
  | nil => simp [getTask]
  | cons q rest ih =>
    obtain ⟨t, i0⟩ := q
    simp only [List.map_cons, List.mem_cons] at h
    push_neg at h
    have ht : t ≠ tid := fun he => h.1 he.symm
    simp [getTask, ht, ih h.2]

lemma getTask_removeTask_self {st : PubState} (h : (st.map Prod.fst).Nodup)
    (tid : String) : getTask (removeTask st tid) tid = none := by
  induction st with
  | nil => simp [removeTask, getTask]
  | cons q rest ih =>
    obtain ⟨t, i0⟩ := q
    simp only [List.map_cons, List.nodup_cons] at h
    by_cases ht : t = tid
    · subst ht
      simpa [removeTask] using getTask_eq_none_of_not_mem h.1
    · simp [removeTask, ht, getTask, ih h.2]

lemma getTask_setTask_self (st : PubState) (tid : String)
    (inner : List (String × Sink)) : getTask (setTask st tid inner) tid = some inner := by
  induction st with
  | nil => simp [setTask, getTask]
  | cons q rest ih =>
    obtain ⟨t, i0⟩ := q
    by_cases ht : t = tid <;> simp [setTask, ht, getTask, ih]

lemma getConn_publishSinks_of_not_mem {inner : List (String × Sink)} {cid : String}
    (ev : EventData) (h : cid ∉ inner.map Prod.fst) :
    getConn (publishSinks ev inner) cid = none := by
  induction inner with
  | nil => simp [publishSinks, getConn]
  | cons q rest ih =>
    obtain ⟨c, s⟩ := q
    simp only [List.map_cons, List.mem_cons] at h
    push_neg at h
    have hc : c ≠ cid := fun he => h.1 he.symm
    simp only [publishSinks]
    cases hq : enqueueSink s ev with
    | ok s2 => simp [getConn, hc, ih h.2]
    | error m => simp [ih h.2]

lemma getConn_publishSinks {inner : List (String × Sink)} {cid : String} {s : Sink}
    (ev : EventData) (hnd : (inner.map Prod.fst).Nodup)
    (h : getConn inner cid = some s) :
    getConn (publishSinks ev inner) cid =
      if s.failing then none else some { s with buffer := s.buffer ++ [ev] } := by
  induction inner with
  | nil => simp [getConn] at h
  | cons q rest ih =>
    obtain ⟨c, s0⟩ := q
    simp only [List.map_cons, List.nodup_cons] at hnd
    by_cases hc : c = cid
    · subst hc
      simp only [getConn, if_true, eq_self_iff_true, Option.some.injEq] at h
      subst h
      simp only [publishSinks, enqueueSink]
      by_cases hf : s0.failing
      · simpa [hf] using getConn_publishSinks_of_not_mem ev hnd.1
      · simp [hf, getConn]
    · simp only [getConn, if_neg hc] at h
      simp only [publishSinks]
      cases hq : enqueueSink s0 ev with
      | ok s2 => simpa [getConn, hc] using ih hnd.2 h
      | error m => exact ih hnd.2 h

/-- C7: per-sink delivery failure inside publish is isolated.  For any
registered sink: when its enqueue throws, publish removes exactly that
subscription (the unsubscribe path); when its enqueue succeeds, the
event lands in its buffer regardless of what other sinks do.  publish
itself is a total function of the state, so no error reaches its
caller. -/
theorem publish_isolates_failing_sink
    (st : PubState) (tid cid : String) (ev : EventData)
    (inner : List (String × Sink)) (s : Sink)
    (hout : (st.map Prod.fst).Nodup)
    (hin : getTask st tid = some inner)
    (hnd : (inner.map Prod.fst).Nodup)
    (hc : getConn inner cid = some s) :
    (s.failing = true → getConn ((getTask (publish st tid ev) tid).getD []) cid = none) ∧
    (s.failing = false →
      getConn ((getTask (publish st tid ev) tid).getD []) cid =
        some { failing := false, buffer := s.buffer ++ [ev] }) := by
  have hps := getConn_publishSinks ev hnd hc
  constructor
  · intro hf
    simp only [publish, hin]
    by_cases he : publishSinks ev inner = []
    · simp [he, getTask_removeTask_self hout, getConn]
    · rw [if_neg he, getTask_setTask_self, Option.getD_some]
      simpa [hf] using hps
  · intro hf
    have hsome : getConn (publishSinks ev inner) cid =
        some { failing := false, buffer := s.buffer ++ [ev] } := by
      have : ({ s with buffer := s.buffer ++ [ev] } : Sink) =
          { failing := false, buffer := s.buffer ++ [ev] } := by
        cases s; simp_all
      simpa [hf, this] using hps
    have he : publishSinks ev inner ≠ [] := by
      intro he
      simp [he, getConn] at hsome
    simp only [publish, hin, if_neg he, getTask_setTask_self, Option.getD_some]
    exact hsome

/-- C7 witness: a two-subscriber task where connection a's controller
throws and connection b's works; b still receives the event. -/
theorem publish_isolates_failing_sink_witness :
    getConn ((getTask (publish [("t", [("a", Sink.mk true []), ("b", Sink.mk false [])])]
        "t" (EventData.mk "task.status" "d" "ts")) "t").getD []) "b" =
      some (Sink.mk false [EventData.mk "task.status" "d" "ts"]) := by
  have h := publish_isolates_failing_sink
    [("t", [("a", Sink.mk true []), ("b", Sink.mk false [])])] "t" "b"
    (EventData.mk "task.status" "d" "ts")
    [("a", Sink.mk true []), ("b", Sink.mk false [])] (Sink.mk false [])
    (by decide) rfl (by decide) rfl
  exact h.2 rfl

/-- C8: across every interleaving of subscribe, unsubscribe, publish
and close starting from a fresh EventPublisher, each task id present
in the subscribers map is bound to a non-empty sink set: removing the
last sink discards the task's entry and close leaves no empty
container behind. -/
theorem runOps_no_empty_subscriber_sets (ops : List PubOp) :
    (runOps ops).all (fun p => !p.2.isEmpty) = true := by
  have h : NoEmpty (runOps ops) := noEmpty_foldl ops [] (by intro p hp; simp at hp)
  rw [List.all_eq_true]
  intro p hp
  have := h p hp
  simpa [List.isEmpty_iff] using this

/-- C9: publishing to a task with no registered sinks delivers to zero
sinks and is a complete no-op on the publisher state, whether the task
never had sinks, was closed, or lost its last subscriber through
unsubscribe. -/
theorem publish_without_subscribers (st : PubState) (tid : String) (ev : EventData) :
    (getTask st tid = none → publish st tid ev = st) ∧
    ((st.map Prod.fst).Nodup → publish (close st tid) tid ev = close st tid) ∧
    (∀ cid s, (st.map Prod.fst).Nodup → getTask st tid = some [(cid, s)] →
      publish (unsubscribe st tid cid) tid ev = unsubscribe st tid cid) := by
  have hnone : ∀ st2 : PubState, getTask st2 tid = none → publish st2 tid ev = st2 := by
    intro st2 h2
    simp [publish, h2]
  refine ⟨hnone st, ?_, ?_⟩
  · intro hnd
    apply hnone
    simp only [close]
    cases hg : getTask st tid with
    | none => exact hg
    | some inner => exact getTask_removeTask_self hnd tid
  · intro cid s hnd hg
    apply hnone
    simp only [unsubscribe, hg, removeConn, if_pos rfl]
    exact getTask_removeTask_self hnd tid

/-- C9 witness: after closing the only subscriber's task, a publish
for that task id leaves the state untouched. -/
theorem publish_without_subscribers_witness :
    publish (close [("t", [("c", Sink.mk false [])])] "t") "t" (EventData.mk "e" "d" "ts") =
      close [("t", [("c", Sink.mk false [])])] "t" :=
  (publish_without_subscribers [("t", [("c", Sink.mk false [])])] "t"
    (EventData.mk "e" "d" "ts")).2.1 (by decide)

/-! ## Backend client retry policy (BoltDiyClient.fetchWithRetry)

fetchWithRetry wraps one fetch attempt in a try/catch: a resolved
response with a non-2xx status is turned into a thrown BoltDiyError
inside the try, so the catch sees both transport errors and bad
statuses uniformly; with retries > 0 it sleeps for retryDelay and
recurses with retries - 1, otherwise it throws a request_failed
BoltDiyError wrapping the last error's message.  The i-th attempt's
outcome is supplied by the environment. -/

/-- Outcome of one fetch call: the promise resolves with an HTTP
status, or rejects (network failure / AbortSignal timeout) with an
error message. -/
inductive AttemptResult
  | resp (status : Nat)
  | thrown (message : String)
  deriving DecidableEq, Repr

/-- BoltDiyError as thrown by the client: an error code plus message
(details dropped, no claim mentions them). -/
structure BoltDiyErr where
  code : String
  message : String
  deriving DecidableEq, Repr

/-- Model of Response.ok in the fetch API: status in the 2xx range. -/
def respOk (s : Nat) : Bool := 200 ≤ s && s < 300

/-- True when the attempt enters the catch block of fetchWithRetry:
the fetch rejected, or the response status was not ok. -/
def attemptFails : AttemptResult → Bool
  | AttemptResult.resp s => !respOk s
  | AttemptResult.thrown _ => true

/-- Model of BoltDiyClient.fetchWithRetry, returning .ok with the response
status or .error with the BoltDiyError finally thrown; env i is the
outcome of the i-th attempt (0-based) and the second argument is the
remaining retries counter, this.retries initially.  The source's
single try/catch is split on the retries counter: an attempt that
enters the catch (rejection, or a non-ok status rethrown inside the
try) either recurses with retries - 1 after the retryDelay sleep, or,
with no retries left, throws the wrapping request_failed error whose
message embeds the caught error's message. -/
def fetchWithRetry (env : Nat → AttemptResult) : Nat → Nat → Except BoltDiyErr Nat
  | i, 0 =>
    match env i with
    | AttemptResult.resp s =>
      if respOk s then Except.ok s
      else Except.error
        ⟨"request_failed",
         "Failed to communicate with bolt.diy: bolt.diy returned status: " ++ toString s⟩
    | AttemptResult.thrown m =>
      Except.error ⟨"request_failed", "Failed to communicate with bolt.diy: " ++ m⟩
  | i, r + 1 =>
    match env i with
    | AttemptResult.resp s =>
      if respOk s then Except.ok s else fetchWithRetry env (i + 1) r
    | AttemptResult.thrown _ => fetchWithRetry env (i + 1) r

/-- Number of fetch calls fetchWithRetry performs, mirroring its
recursion: one for the current attempt plus the recursive count. -/
def fetchAttempts (env : Nat → AttemptResult) : Nat → Nat → Nat
  | _, 0 => 1
  | i, r + 1 =>
    match env i with
    | AttemptResult.resp s => if respOk s then 1 else 1 + fetchAttempts env (i + 1) r
    | AttemptResult.thrown _ => 1 + fetchAttempts env (i + 1) r

/-- Durations of the setTimeout sleeps fetchWithRetry performs, in
recursion order; every sleep is the fixed this.retryDelay d. -/
def fetchDelays (env : Nat → AttemptResult) (d : Nat) : Nat → Nat → List Nat
  | _, 0 => []
  | i, r + 1 =>
    match env i with
    | AttemptResult.resp s => if respOk s then [] else d :: fetchDelays env d (i + 1) r
    | AttemptResult.thrown _ => d :: fetchDelays env d (i + 1) r

lemma fetchWithRetry_all_fail (env : Nat → AttemptResult) (d : Nat) :
    ∀ retries i, (∀ j, i ≤ j → j ≤ i + retries → attemptFails (env j) = true) →
      (∃ m, fetchWithRetry env i retries = Except.error ⟨"request_failed", m⟩) ∧
      fetchAttempts env i retries = retries + 1 ∧
      fetchDelays env d i retries = List.replicate retries d := by
  intro retries
  induction retries with
  | zero =>
    intro i h
    have hi := h i (le_refl i) (by omega)
    cases he : env i with
    | resp s =>
      have hok : respOk s = false := by simpa [attemptFails, he] using hi
      refine ⟨⟨"Failed to communicate with bolt.diy: bolt.diy returned status: " ++
        toString s, ?_⟩, ?_, ?_⟩
      · simp [fetchWithRetry, he, hok]
      · simp [fetchAttempts]
      · simp [fetchDelays]
    | thrown m =>
      refine ⟨⟨"Failed to communicate with bolt.diy: " ++ m, ?_⟩, ?_, ?_⟩
      · simp [fetchWithRetry, he]
      · simp [fetchAttempts]
      · simp [fetchDelays]
  | succ r ih =>
    intro i h
    have hi := h i (le_refl i) (by omega)
    have hrest : ∀ j, i + 1 ≤ j → j ≤ (i + 1) + r → attemptFails (env j) = true :=
      fun j h1 h2 => h j (by omega) (by omega)
    obtain ⟨⟨m, hm⟩, ha, hd⟩ := ih (i + 1) hrest
    cases he : env i with
    | resp s =>
      have hok : respOk s = false := by simpa [attemptFails, he] using hi
      refine ⟨⟨m, ?_⟩, ?_, ?_⟩
      · simpa [fetchWithRetry, he, hok] using hm
      · simp [fetchAttempts, he, hok, ha]; omega
      · simp [fetchDelays, he, hok, hd, List.replicate_succ]
    | thrown mm =>
      refine ⟨⟨m, ?_⟩, ?_, ?_⟩
      · simpa [fetchWithRetry, he] using hm
      · simp [fetchAttempts, he, ha]; omega
      · simp [fetchDelays, he, hd, List.replicate_succ]

/-- C4: when every attempt fails (network or timeout rejection, or a
non-2xx status), fetchWithRetry performs exactly retries + 1 attempts,
sleeps the fixed retryDelay before each of the retries re-attempts,
and finally raises a BoltDiyError with code request_failed. -/
theorem fetchWithRetry_exhausts_then_request_failed
    (env : Nat → AttemptResult) (retries d : Nat)
    (h : ∀ j, j ≤ retries → attemptFails (env j) = true) :
    (∃ m, fetchWithRetry env 0 retries = Except.error ⟨"request_failed", m⟩) ∧
    fetchAttempts env 0 retries = retries + 1 ∧
    fetchDelays env d 0 retries = List.replicate retries d :=
  fetchWithRetry_all_fail env d retries 0 (fun j _ hj => h j (by omega))

/-- C4 witness: for an environment whose fetch always rejects and the
default retries = 3, the client makes 4 attempts, sleeps 3 times, and
fails with request_failed. -/
theorem fetchWithRetry_exhausts_then_request_failed_witness :
    attemptFails ((fun _ => AttemptResult.thrown "connection refused") 0) = true ∧
    (∃ m, fetchWithRetry (fun _ => AttemptResult.thrown "connection refused") 0 3 =
      Except.error ⟨"request_failed", m⟩) ∧
    fetchAttempts (fun _ => AttemptResult.thrown "connection refused") 0 3 = 3 + 1 ∧
    fetchDelays (fun _ => AttemptResult.thrown "connection refused") 1000 0 3 =
      List.replicate 3 1000 :=
  ⟨rfl, fetchWithRetry_exhausts_then_request_failed
    (fun _ => AttemptResult.thrown "connection refused") 3 1000 (fun _ _ => rfl)⟩

/-! ## SSE stream decoding (BoltDiyClient.extractEvents)

extractEvents splits the buffered text on newlines and walks the
lines, collecting an event: line and a data: line into the current
event; a blank line completes the current event (JSON.parse applied to
its data, parse failures logged and skipped); the first line matching
none of these becomes the remainder (that line joined with everything
after it).  JS string primitives (split, startsWith, slice, trim) are
modelled over the string's character list so that they mirror the
per-code-unit JS semantics; JSON.parse is an external platform
function, passed in as parse, returning none exactly when it throws. -/

/-- Model of buffer.split(sep-newline): splits at every newline
character, keeping empty segments, as JS String.split does. -/
def splitOnNl : List Char → List (List Char)
  | [] => [[]]
  | c :: rest =>
    if c = '\n' then [] :: splitOnNl rest
    else
      match splitOnNl rest with
      | [] => [[c]]
      | l :: ls => (c :: l) :: ls

/-- Model of line.startsWith(pat). -/
def startsWithL : List Char → List Char → Bool
  | _, [] => true
  | [], _ :: _ => false
  | c :: s, p :: ps => c = p && startsWithL s ps

/-- Whitespace stripped by JS String.trim (the characters occurring in
this codebase's streams). -/
def isWsp (c : Char) : Bool := c = ' ' || c = '\n' || c = '\t' || c = '\r'

/-- Model of line.trim(): strip leading and trailing whitespace. -/
def trimL (s : List Char) : List Char :=
  ((s.dropWhile isWsp).reverse.dropWhile isWsp).reverse

/-- JS truthiness of currentEvent.type / currentEvent.data: the field
is set and is a non-empty string. -/
def truthyL : Option (List Char) → Bool
  | none => false
  | some l => !l.isEmpty

/-- The for-loop of extractEvents over the split lines; curType and
curData are the fields of the currentEvent object (undefined modelled
as none).  On a blank line a complete event is emitted when both
fields are truthy and parse succeeds; a line that is neither a field
line nor blank stops the loop and becomes the remainder. -/
def extractLoop {J : Type} (parse : String → Option J) :
    List (List Char) → Option (List Char) → Option (List Char) → List (String × J) × String
  | [], _, _ => ([], "")
  | line :: rest, curType, curData =>
    if startsWithL line ("event:".toList) then
      extractLoop parse rest (some (trimL (line.drop 6))) curData
    else if startsWithL line ("data:".toList) then
      extractLoop parse rest curType (some (trimL (line.drop 5)))
    else if line = [] then
      (if truthyL curType && truthyL curData then
        match parse (String.mk (curData.getD [])) with
        | some j =>
          ((String.mk (curType.getD []), j) :: (extractLoop parse rest none none).1,
           (extractLoop parse rest none none).2)
        | none => extractLoop parse rest none none
      else extractLoop parse rest none none)
    else
      ([], String.mk (List.intercalate ['\n'] (line :: rest)))

/-- Model of BoltDiyClient.extractEvents: complete decoded events plus the
remainder to carry into the next read. -/
def extractEvents {J : Type} (parse : String → Option J) (buffer : String) :
    List (String × J) × String :=
  extractLoop parse (splitOnNl buffer.toList) none none

/-- The specification's test byte sequence for stream parsing. -/
def sseInput : String :=
  "event: task.status\ndata: \x7b\"status\":\"processing\"\x7d\n\nevent: task.completion\ndata: \x7b\"implementation\":\"x\"\x7d\n\n"

/-- C6: on the specification's byte sequence, extractEvents decodes
exactly two events, in order task.status then task.completion, whose
data fields are the JSON.parse results of the two data payloads, and
leaves an empty remainder. -/
theorem extractEvents_sse_pair {J : Type} (parse : String → Option J) (j1 j2 : J)
    (h1 : parse "\x7b\"status\":\"processing\"\x7d" = some j1)
    (h2 : parse "\x7b\"implementation\":\"x\"\x7d" = some j2) :
    extractEvents parse sseInput = ([("task.status", j1), ("task.completion", j2)], "") := by
  have step : extractEvents parse sseInput =
      (match parse "\x7b\"status\":\"processing\"\x7d" with
       | some j =>
         (("task.status", j) ::
            (match parse "\x7b\"implementation\":\"x\"\x7d" with
             | some j2 => ([("task.completion", j2)], "")
             | none => (([] : List (String × J)), "")).1,
          (match parse "\x7b\"implementation\":\"x\"\x7d" with
           | some j2 => ([("task.completion", j2)], "")
           | none => (([] : List (String × J)), "")).2)
       | none =>
         match parse "\x7b\"implementation\":\"x\"\x7d" with
         | some j2 => ([("task.completion", j2)], "")
         | none => (([] : List (String × J)), "")) := rfl
  rw [step, h1, h2]

/-- C6 witness: instantiating the parse collaborator with a function
that succeeds on both payloads yields the two events concretely. -/
theorem extractEvents_sse_pair_witness :
    extractEvents (fun s => some s) sseInput =
      ([("task.status", "\x7b\"status\":\"processing\"\x7d"),
        ("task.completion", "\x7b\"implementation\":\"x\"\x7d")], "") :=
  extractEvents_sse_pair (fun s => some s) _ _ rfl rfl

/-! ## Task orchestration (TaskProcessor.processTask)

processTask runs, inside one try/catch, a while loop bounded by
MAX_RETRIES = 30: each iteration sleeps 10 seconds, calls
getTaskStatus, publishes a task.status event, and on a terminal
backend status runs the completed or failed branch; after the loop the
timeout branch runs when no terminal status was seen; any exception
escaping to the catch branch persists a background_processing_error
failure.  The model captures the sequential effect trace the
orchestrator produces against an environment supplying the behaviour
of the backend client, the task store and the file manager.  The
fire-and-forget streamImplementation call runs concurrently and only
feeds the EventPublisher; it is outside this sequential trace (the
spec's terminal-event claims are about the orchestrator's own
publishes).  The 10-second sleeps and event timestamps are real-time
effects with no bearing on any claim and are not recorded. -/

/-- Task status values used by the backend and the task store. -/
inductive TStatus
  | pending
  | processing
  | completed
  | failed
  deriving DecidableEq, Repr

/-- Parsed getTaskStatus response: status plus optional progress. -/
structure StatusResp where
  status : TStatus
  progress : Option Nat
  deriving DecidableEq, Repr

/-- One entry of a fetched implementation's files array. -/
structure FileEntry where
  name : String
  content : String
  deriving DecidableEq, Repr

/-- Parsed getImplementation response. -/
structure ImplResult where
  implementation : String
  files : Option (List FileEntry)
  deriving DecidableEq, Repr

/-- A supabase tasks-table update the orchestrator issues: either the
completed row (status and implementation) or a failed row (status and
structured error code / message). -/
inductive TaskUpdate
  | completedUpd (implementation : String)
  | failedUpd (code : String) (message : String)
  deriving DecidableEq, Repr

/-- An event published by the orchestrator via the EventPublisher,
identified by its type and payload (timestamps omitted). -/
inductive PubEvent
  | statusEv (s : TStatus) (progress : Option Nat)
  | completionEv (implementation : String) (files : Option (List FileEntry))
  | errorEv (code : String) (message : String)
  deriving DecidableEq, Repr

/-- One observable effect of processTask, in program order: a
getTaskStatus call (poll i is the i-th, 0-based), an EventPublisher
publish, a getImplementation call, a tasks-table update (ok records
whether the store accepted it), a fileManager.uploadFile call, or an
EventPublisher close for the task. -/
inductive Effect
  | pollEff (i : Nat)
  | publishEff (e : PubEvent)
  | fetchImplEff
  | updateEff (u : TaskUpdate) (ok : Bool)
  | uploadEff (name content : String)
  | closeEff
  deriving DecidableEq, Repr

/-- Behaviour of the external collaborators for one processTask run:
the result of the i-th getTaskStatus call (Except.error is a thrown
error, e.g. request_failed after retry exhaustion, carrying its
message), the result of getImplementation, whether a given tasks-table
update returns an error object, and whether a given file upload
throws. -/
structure Env where
  pollResult : Nat → Except String StatusResp
  implResult : Except String ImplResult
  updateError : TaskUpdate → Option String
  uploadError : FileEntry → Option String

/-- How the poll loop ends: a terminal branch ran (completed flag set,
loop exits), the attempt budget was exhausted (completed still false),
or an exception escaped the loop body with the given message. -/
inductive LoopOutcome
  | completedExit
  | timeoutExit
  | thrown (msg : String)
  deriving DecidableEq, Repr

/-- The MAX_RETRIES constant in TaskProcessor.processTask. -/
def MAX_RETRIES : Nat := 30

/-- The for-of loop uploading result.files: each uploadFile is
awaited, so the first throwing upload aborts the loop and the
exception escapes; returns the upload effects performed and the error
message, if any.  A file whose upload throws still produced an
uploadFile call, so its effect is recorded. -/
def runUploads (env : Env) : List FileEntry → List Effect × Option String
  | [] => ([], none)
  | f :: rest =>
    match env.uploadError f with
    | some m => ([Effect.uploadEff f.name f.content], some m)
    | none =>
      ((Effect.uploadEff f.name f.content) :: (runUploads env rest).1,
       (runUploads env rest).2)

/-- The status.status === completed branch: fetch the implementation,
update the task row (a store error is rethrown), upload any files,
publish the task.completion event, close the stream.  The guard
result.files?.length skips the upload loop exactly when the files
array is absent or empty, which is iterating an empty list. -/
def completedBranch (env : Env) : List Effect × LoopOutcome :=
  match env.implResult with
  | Except.error m => ([Effect.fetchImplEff], LoopOutcome.thrown m)
  | Except.ok r =>
    match env.updateError (TaskUpdate.completedUpd r.implementation) with
    | some m =>
      ([Effect.fetchImplEff, Effect.updateEff (TaskUpdate.completedUpd r.implementation) false],
       LoopOutcome.thrown ("Failed to update task: " ++ m))
    | none =>
      match (runUploads env (r.files.getD [])).2 with
      | some m =>
        ([Effect.fetchImplEff, Effect.updateEff (TaskUpdate.completedUpd r.implementation) true]
           ++ (runUploads env (r.files.getD [])).1,
         LoopOutcome.thrown m)
      | none =>
        ([Effect.fetchImplEff, Effect.updateEff (TaskUpdate.completedUpd r.implementation) true]
           ++ (runUploads env (r.files.getD [])).1
           ++ [Effect.publishEff (PubEvent.completionEv r.implementation r.files),
               Effect.closeEff],
         LoopOutcome.completedExit)

/-- The status.status === failed branch: persist the failed row with
the bolt_diy_processing_error code (a store error is rethrown),
publish the task.error event, set completed, close the stream. -/
def failedBranch (env : Env) : List Effect × LoopOutcome :=
  match env.updateError (TaskUpdate.failedUpd "bolt_diy_processing_error"
      "Task processing failed in bolt.diy") with
  | some m =>
    ([Effect.updateEff (TaskUpdate.failedUpd "bolt_diy_processing_error"
        "Task processing failed in bolt.diy") false],
     LoopOutcome.thrown ("Failed to update task: " ++ m))
  | none =>
    ([Effect.updateEff (TaskUpdate.failedUpd "bolt_diy_processing_error"
        "Task processing failed in bolt.diy") true,
      Effect.publishEff (PubEvent.errorEv "bolt_diy_processing_error"
        "Task processing failed in bolt.diy"),
      Effect.closeEff],
     LoopOutcome.completedExit)

/-- The while (!completed && retries < MAX_RETRIES) loop.  fuel is
MAX_RETRIES - retries, kept in lockstep with the retries counter by
every call (processTask starts the pair at (MAX_RETRIES, 0)), so fuel
reaching 0 is exactly the loop guard retries < MAX_RETRIES turning
false.  Each iteration: getTaskStatus (a throw aborts the loop),
publish task.status, then dispatch on the status. -/
def runLoop (env : Env) : Nat → Nat → List Effect × LoopOutcome
  | 0, _ => ([], LoopOutcome.timeoutExit)
  | fuel + 1, retries =>
    match env.pollResult retries with
    | Except.error m => ([Effect.pollEff retries], LoopOutcome.thrown m)
    | Except.ok st =>
      match st.status with
      | TStatus.completed =>
        ([Effect.pollEff retries,
          Effect.publishEff (PubEvent.statusEv st.status st.progress)]
           ++ (completedBranch env).1,
         (completedBranch env).2)
      | TStatus.failed =>
        ([Effect.pollEff retries,
          Effect.publishEff (PubEvent.statusEv st.status st.progress)]
           ++ (failedBranch env).1,
         (failedBranch env).2)
      | _ =>
        ([Effect.pollEff retries,
          Effect.publishEff (PubEvent.statusEv st.status st.progress)]
           ++ (runLoop env fuel (retries + 1)).1,
         (runLoop env fuel (retries + 1)).2)

/-- The catch branch: persist a background_processing_error failure
carrying the caught error's message (a store error here is only
logged, never rethrown), publish the task.error event, close the
stream. -/
def catchEffects (env : Env) (msg : String) : List Effect :=
  [Effect.updateEff (TaskUpdate.failedUpd "background_processing_error" msg)
     ((env.updateError (TaskUpdate.failedUpd "background_processing_error" msg)).isNone),
   Effect.publishEff (PubEvent.errorEv "background_processing_error" msg),
   Effect.closeEff]

/-- The if (!completed) timeout branch after the loop: persist the
failed row with code timeout (a store error is rethrown into the
catch branch), publish the task.error event, close the stream. -/
def timeoutBranch (env : Env) : List Effect :=
  match env.updateError (TaskUpdate.failedUpd "timeout" "Task processing timed out") with
  | some m =>
    Effect.updateEff (TaskUpdate.failedUpd "timeout" "Task processing timed out") false
      :: catchEffects env ("Failed to update task: " ++ m)
  | none =>
    [Effect.updateEff (TaskUpdate.failedUpd "timeout" "Task processing timed out") true,
     Effect.publishEff (PubEvent.errorEv "timeout" "Task processing timed out"),
     Effect.closeEff]

/-- Model of TaskProcessor.processTask: the poll loop, then the timeout branch
when the loop exhausted its budget, with the catch branch receiving
any escaped exception. -/
def processTask (env : Env) : List Effect :=
  match runLoop env MAX_RETRIES 0 with
  | (es, LoopOutcome.completedExit) => es
  | (es, LoopOutcome.timeoutExit) => es ++ timeoutBranch env
  | (es, LoopOutcome.thrown m) => es ++ catchEffects env m

/-- True for the terminal stream events task.completion and
task.error. -/
def isTerminalPub : Effect → Bool
  | Effect.publishEff (PubEvent.completionEv _ _) => true
  | Effect.publishEff (PubEvent.errorEv _ _) => true
  | _ => false

/-- True for getTaskStatus call effects. -/
def isPoll : Effect → Bool
  | Effect.pollEff _ => true
  | _ => false

/-- True for getImplementation call effects. -/
def isFetch : Effect → Bool
  | Effect.fetchImplEff => true
  | _ => false

/-- Effects a non-terminal loop iteration may produce: a poll and its
task.status publish. -/
def benign : Effect → Bool
  | Effect.pollEff _ => true
  | Effect.publishEff (PubEvent.statusEv _ _) => true
  | _ => false

/-- Status column value a task update writes. -/
def TaskUpdate.statusOf : TaskUpdate → TStatus
  | TaskUpdate.completedUpd _ => TStatus.completed
  | TaskUpdate.failedUpd _ _ => TStatus.failed

/-- Status this effect persisted to the task store, if it is an
update the store accepted. -/
def persistOf : Effect → Option TStatus
  | Effect.updateEff u true => some u.statusOf
  | _ => none

/-- The sequence of status values actually persisted to the task
store: the statuses of the updates the store accepted, in order. -/
def persisted (tr : List Effect) : List TStatus := tr.filterMap persistOf

/-! ### Orchestrator lemmas -/

lemma benign_isTerminalPub {e : Effect} (h : benign e = true) : isTerminalPub e = false := by
  cases e with
  | publishEff ev => cases ev <;> simp_all [benign, isTerminalPub]
  | _ => simp_all [benign, isTerminalPub]

lemma benign_isFetch {e : Effect} (h : benign e = true) : isFetch e = false := by
  cases e with
  | publishEff ev => cases ev <;> simp_all [benign, isFetch]
  | _ => simp_all [benign, isFetch]

lemma benign_persistOf {e : Effect} (h : benign e = true) : persistOf e = none := by
  cases e with
  | publishEff ev => cases ev <;> simp_all [benign, persistOf]
  | _ => simp_all [benign, persistOf]

lemma benign_ne_update {e : Effect} (h : benign e = true) (u : TaskUpdate) (b : Bool) :
    e ≠ Effect.updateEff u b := by
  intro he
  subst he
  simp [benign] at h

lemma countP_benign_zero {l : List Effect} (hl : ∀ e ∈ l, benign e = true)
    {p : Effect → Bool} (hp : ∀ e, benign e = true → p e = false) :
    l.countP p = 0 :=
  List.countP_eq_zero.mpr fun e he => by simp [hp e (hl e he)]

lemma persisted_append (a b : List Effect) :
    persisted (a ++ b) = persisted a ++ persisted b := by
  simp [persisted, List.filterMap_append]

lemma persisted_benign {l : List Effect} (hl : ∀ e ∈ l, benign e = true) :
    persisted l = [] := by
  refine List.filterMap_eq_nil_iff.mpr fun e he => benign_persistOf (hl e he)

lemma runUploads_countP (env : Env) (fs : List FileEntry) {p : Effect → Bool}
    (hp : ∀ n c, p (Effect.uploadEff n c) = false) :
    (runUploads env fs).1.countP p = 0 := by
  induction fs with
  | nil => simp [runUploads]
  | cons f rest ih =>
    cases hu : env.uploadError f with
    | some m => simp [runUploads, hu, List.countP_cons, hp]
    | none => simp [runUploads, hu, List.countP_cons, hp, ih]

lemma runUploads_persisted (env : Env) (fs : List FileEntry) :
    persisted (runUploads env fs).1 = [] := by
  induction fs with
  | nil => simp [runUploads, persisted]
  | cons f rest ih =>
    cases hu : env.uploadError f with
    | some m => simp [runUploads, hu, persisted, persistOf]
    | none => simpa [runUploads, hu, persisted, persistOf] using ih

lemma runUploads_no_update (env : Env) (fs : List FileEntry) (u : TaskUpdate) (b : Bool) :
    Effect.updateEff u b ∉ (runUploads env fs).1 := by
  induction fs with
  | nil => simp [runUploads]
  | cons f rest ih =>
    cases hu : env.uploadError f with
    | some m => simp [runUploads, hu]
    | none => simp [runUploads, hu, ih]

lemma runUploads_ok (env : Env) (fs : List FileEntry)
    (h : ∀ f ∈ fs, env.uploadError f = none) : (runUploads env fs).2 = none := by
  induction fs with
  | nil => simp [runUploads]
  | cons f rest ih =>
    have hf : env.uploadError f = none := h f (by simp)
    simp only [runUploads, hf]
    exact ih fun g hg => h g (by simp [hg])

/-- Shape of every terminal branch's trace: it ends with one terminal
publish immediately followed by the stream close, and no terminal
event is published before that. -/
def TerminalShape (tr : List Effect) : Prop :=
  ∃ pre e, tr = pre ++ [Effect.publishEff e, Effect.closeEff] ∧
    isTerminalPub (Effect.publishEff e) = true ∧ pre.countP isTerminalPub = 0

lemma terminalShape_append_left {tr : List Effect} (pre0 : List Effect)
    (h0 : pre0.countP isTerminalPub = 0) (h : TerminalShape tr) :
    TerminalShape (pre0 ++ tr) := by
  obtain ⟨pre, e, heq, hterm, hcnt⟩ := h
  exact ⟨pre0 ++ pre, e, by simp [heq], hterm, by simp [List.countP_append, h0, hcnt]⟩

lemma catchEffects_shape (env : Env) (m : String) :
    TerminalShape (catchEffects env m) := by
  refine ⟨[Effect.updateEff (TaskUpdate.failedUpd "background_processing_error" m)
    ((env.updateError (TaskUpdate.failedUpd "background_processing_error" m)).isNone)],
    PubEvent.errorEv "background_processing_error" m, ?_, rfl, ?_⟩
  · simp [catchEffects]
  · simp [List.countP_cons, isTerminalPub]

lemma timeoutBranch_shape (env : Env) : TerminalShape (timeoutBranch env) := by
  cases hu : env.updateError (TaskUpdate.failedUpd "timeout" "Task processing timed out") with
  | some m =>
    simp only [timeoutBranch, hu]
    refine terminalShape_append_left
      [Effect.updateEff (TaskUpdate.failedUpd "timeout" "Task processing timed out") false]
      ?_ (catchEffects_shape env ("Failed to update task: " ++ m))
    simp [List.countP_cons, isTerminalPub]
  | none =>
    refine ⟨[Effect.updateEff (TaskUpdate.failedUpd "timeout" "Task processing timed out") true],
      PubEvent.errorEv "timeout" "Task processing timed out", ?_, rfl, ?_⟩
    · simp [timeoutBranch, hu]
    · simp [List.countP_cons, isTerminalPub]

lemma completedBranch_shape (env : Env) :
    ((completedBranch env).2 = LoopOutcome.completedExit →
      TerminalShape (completedBranch env).1) ∧
    ((completedBranch env).2 ≠ LoopOutcome.completedExit →
      (completedBranch env).1.countP isTerminalPub = 0) := by
  cases hi : env.implResult with
  | error m =>
    constructor
    · intro h; simp [completedBranch, hi] at h
    · intro _; simp [completedBranch, hi, List.countP_cons, isTerminalPub]
  | ok r =>
    cases hu : env.updateError (TaskUpdate.completedUpd r.implementation) with
    | some m =>
      constructor
      · intro h; simp [completedBranch, hi, hu] at h
      · intro _; simp [completedBranch, hi, hu, List.countP_cons, isTerminalPub]
    | none =>
      have hues : (runUploads env (r.files.getD [])).1.countP isTerminalPub = 0 :=
        runUploads_countP env _ (fun _ _ => rfl)
      cases hr : (runUploads env (r.files.getD [])).2 with
      | some m =>
        constructor
        · intro h; simp [completedBranch, hi, hu, hr] at h
        · intro _
          simp [completedBranch, hi, hu, hr, List.countP_append, List.countP_cons,
            isTerminalPub, hues]
      | none =>
        constructor
        · intro _
          refine ⟨[Effect.fetchImplEff,
              Effect.updateEff (TaskUpdate.completedUpd r.implementation) true]
              ++ (runUploads env (r.files.getD [])).1,
            PubEvent.completionEv r.implementation r.files, ?_, rfl, ?_⟩
          · simp [completedBranch, hi, hu, hr]
          · simp [List.countP_append, List.countP_cons, isTerminalPub, hues]
        · intro h; simp [completedBranch, hi, hu, hr] at h

lemma completedBranch_persisted (env : Env) :
    ((completedBranch env).2 = LoopOutcome.completedExit →
      persisted (completedBranch env).1 = [TStatus.completed]) ∧
    ((completedBranch env).2 = LoopOutcome.timeoutExit → False) ∧
    (∀ m, (completedBranch env).2 = LoopOutcome.thrown m →
      persisted (completedBranch env).1 = [] ∨
      persisted (completedBranch env).1 = [TStatus.completed]) := by
  cases hi : env.implResult with
  | error m =>
    refine ⟨fun h => by simp [completedBranch, hi] at h,
      fun h => by simp [completedBranch, hi] at h,
      fun m2 _ => Or.inl ?_⟩
    simp [completedBranch, hi, persisted, persistOf]
  | ok r =>
    cases hu : env.updateError (TaskUpdate.completedUpd r.implementation) with
    | some m =>
      refine ⟨fun h => by simp [completedBranch, hi, hu] at h,
        fun h => by simp [completedBranch, hi, hu] at h,
        fun m2 _ => Or.inl ?_⟩
      simp [completedBranch, hi, hu, persisted, persistOf]
    | none =>
      have hup : persisted (runUploads env (r.files.getD [])).1 = [] :=
        runUploads_persisted env _
      cases hr : (runUploads env (r.files.getD [])).2 with
      | some m =>
        refine ⟨fun h => by simp [completedBranch, hi, hu, hr] at h,
          fun h => by simp [completedBranch, hi, hu, hr] at h,
          fun m2 _ => Or.inr ?_⟩
        simp only [completedBranch, hi, hu, hr]
        rw [persisted_append, hup]
        simp [persisted, persistOf, TaskUpdate.statusOf]
      | none =>
        refine ⟨fun _ => ?_,
          fun h => by simp [completedBranch, hi, hu, hr] at h,
          fun m2 h => by simp [completedBranch, hi, hu, hr] at h⟩
        simp only [completedBranch, hi, hu, hr]
        rw [persisted_append, persisted_append, hup]
        simp [persisted, persistOf, TaskUpdate.statusOf]

lemma failedBranch_persisted (env : Env) :
    ((failedBranch env).2 = LoopOutcome.completedExit →
      persisted (failedBranch env).1 = [TStatus.failed]) ∧
    ((failedBranch env).2 = LoopOutcome.timeoutExit → False) ∧
    (∀ m, (failedBranch env).2 = LoopOutcome.thrown m →
      persisted (failedBranch env).1 = []) := by
  cases hu : env.updateError (TaskUpdate.failedUpd "bolt_diy_processing_error"
      "Task processing failed in bolt.diy") with
  | some m =>
    refine ⟨fun h => by simp [failedBranch, hu] at h,
      fun h => by simp [failedBranch, hu] at h,
      fun m2 _ => ?_⟩
    simp [failedBranch, hu, persisted, persistOf]
  | none =>
    refine ⟨fun _ => ?_,
      fun h => by simp [failedBranch, hu] at h,
      fun m2 h => by simp [failedBranch, hu] at h⟩
    simp [failedBranch, hu, persisted, persistOf, TaskUpdate.statusOf]

lemma catchEffects_persisted (env : Env) (m : String) :
    persisted (catchEffects env m) = [] ∨
    persisted (catchEffects env m) = [TStatus.failed] := by
  cases hu : env.updateError (TaskUpdate.failedUpd "background_processing_error" m) with
  | some e => exact Or.inl (by simp [catchEffects, hu, persisted, persistOf])
  | none =>
    exact Or.inr (by simp [catchEffects, hu, persisted, persistOf, TaskUpdate.statusOf])

lemma timeoutBranch_persisted (env : Env) :
    persisted (timeoutBranch env) = [] ∨
    persisted (timeoutBranch env) = [TStatus.failed] := by
  cases hu : env.updateError (TaskUpdate.failedUpd "timeout" "Task processing timed out") with
  | some m =>
    have := catchEffects_persisted env ("Failed to update task: " ++ m)
    rcases this with h | h
    · exact Or.inl (by simp [timeoutBranch, hu, persisted, persistOf] at h ⊢; exact h)
    · exact Or.inr (by simp [timeoutBranch, hu, persisted, persistOf] at h ⊢; exact h)
  | none =>
    exact Or.inr (by simp [timeoutBranch, hu, persisted, persistOf, TaskUpdate.statusOf])

lemma failedBranch_shape (env : Env) :
    ((failedBranch env).2 = LoopOutcome.completedExit →
      TerminalShape (failedBranch env).1) ∧
    ((failedBranch env).2 ≠ LoopOutcome.completedExit →
      (failedBranch env).1.countP isTerminalPub = 0) := by
  cases hu : env.updateError (TaskUpdate.failedUpd "bolt_diy_processing_error"
      "Task processing failed in bolt.diy") with
  | some m =>
    constructor
    · intro h; simp [failedBranch, hu] at h
    · intro _; simp [failedBranch, hu, List.countP_cons, isTerminalPub]
  | none =>
    constructor
    · intro _
      refine ⟨[Effect.updateEff (TaskUpdate.failedUpd "bolt_diy_processing_error"
          "Task processing failed in bolt.diy") true],
        PubEvent.errorEv "bolt_diy_processing_error" "Task processing failed in bolt.diy",
        ?_, rfl, ?_⟩
      · simp [failedBranch, hu]
      · simp [List.countP_cons, isTerminalPub]
    · intro h; simp [failedBranch, hu] at h

lemma runLoop_shape (env : Env) :
    ∀ fuel retries,
      ((runLoop env fuel retries).2 = LoopOutcome.completedExit →
        TerminalShape (runLoop env fuel retries).1) ∧
      ((runLoop env fuel retries).2 ≠ LoopOutcome.completedExit →
        (runLoop env fuel retries).1.countP isTerminalPub = 0) := by
  intro fuel
  induction fuel with
  | zero =>
    intro retries
    exact ⟨fun h => by simp [runLoop] at h, fun _ => by simp [runLoop]⟩
  | succ fuel ih =>
    intro retries
    cases hp : env.pollResult retries with
    | error m =>
      exact ⟨fun h => by simp [runLoop, hp] at h,
        fun _ => by simp [runLoop, hp, List.countP_cons, isTerminalPub]⟩
    | ok st =>
      obtain ⟨s, q⟩ := st
      cases s with
      | completed =>
        have hb := completedBranch_shape env
        constructor
        · intro h
          simp only [runLoop, hp] at h ⊢
          exact terminalShape_append_left _
            (by simp [List.countP_cons, isTerminalPub]) (hb.1 h)
        · intro h
          simp only [runLoop, hp] at h ⊢
          simp [List.countP_append, List.countP_cons, isTerminalPub, hb.2 h]
      | failed =>
        have hb := failedBranch_shape env
        constructor
        · intro h
          simp only [runLoop, hp] at h ⊢
          exact terminalShape_append_left _
            (by simp [List.countP_cons, isTerminalPub]) (hb.1 h)
        · intro h
          simp only [runLoop, hp] at h ⊢
          simp [List.countP_append, List.countP_cons, isTerminalPub, hb.2 h]
      | pending =>
        constructor
        · intro h
          simp only [runLoop, hp] at h ⊢
          exact terminalShape_append_left _
            (by simp [List.countP_cons, isTerminalPub]) ((ih (retries + 1)).1 h)
        · intro h
          simp only [runLoop, hp] at h ⊢
          simp [List.countP_append, List.countP_cons, isTerminalPub, (ih (retries + 1)).2 h]
      | processing =>
        constructor
        · intro h
          simp only [runLoop, hp] at h ⊢
          exact terminalShape_append_left _
            (by simp [List.countP_cons, isTerminalPub]) ((ih (retries + 1)).1 h)
        · intro h
          simp only [runLoop, hp] at h ⊢
          simp [List.countP_append, List.countP_cons, isTerminalPub, (ih (retries + 1)).2 h]

lemma benign_iter_head {l : List Effect} (i : Nat) (s : TStatus) (q : Option Nat)
    (hl : ∀ e ∈ l, benign e = true) :
    ∀ e ∈ ([Effect.pollEff i, Effect.publishEff (PubEvent.statusEv s q)] ++ l),
      benign e = true := by
  intro e he
  rcases List.mem_append.mp he with he | he
  · rcases List.mem_cons.mp he with rfl | he
    · rfl
    · rcases List.mem_cons.mp he with rfl | he
      · rfl
      · exact absurd he (List.not_mem_nil e)
  · exact hl e he

lemma countP_isPoll_iter_head (i : Nat) (s : TStatus) (q : Option Nat) (l : List Effect) :
    ([Effect.pollEff i, Effect.publishEff (PubEvent.statusEv s q)] ++ l).countP isPoll
      = l.countP isPoll + 1 := by
  simp [List.countP_append, List.countP_cons, isPoll]

lemma runLoop_reaches (env : Env) (k : Nat) :
    ∀ fuel retries, retries + fuel = MAX_RETRIES → retries ≤ k → k < MAX_RETRIES →
      (∀ j, retries ≤ j → j < k → ∃ s q, env.pollResult j = Except.ok ⟨s, q⟩ ∧
        s ≠ TStatus.completed ∧ s ≠ TStatus.failed) →
      ∃ spre, (runLoop env fuel retries).1 = spre ++ (runLoop env (MAX_RETRIES - k) k).1 ∧
        (runLoop env fuel retries).2 = (runLoop env (MAX_RETRIES - k) k).2 ∧
        (∀ e ∈ spre, benign e = true) ∧ spre.countP isPoll = k - retries := by
  intro fuel
  induction fuel with
  | zero =>
    intro retries h1 h2 h3 _
    exfalso
    omega
  | succ fuel ih =>
    intro retries h1 h2 h3 hpre
    by_cases hrk : retries = k
    · subst hrk
      have h5 : MAX_RETRIES - retries = fuel + 1 := by omega
      rw [h5]
      exact ⟨[], by simp, rfl, by simp, by simp⟩
    · have h6 : retries < k := lt_of_le_of_ne h2 hrk
      obtain ⟨s, q, hj, hs1, hs2⟩ := hpre retries le_rfl h6
      obtain ⟨spre, ha, hb, hc, hd⟩ := ih (retries + 1) (by omega) (by omega) h3
        (fun j hj1 hj2 => hpre j (by omega) hj2)
      cases s with
      | completed => exact absurd rfl hs1
      | failed => exact absurd rfl hs2
      | pending =>
        refine ⟨[Effect.pollEff retries,
          Effect.publishEff (PubEvent.statusEv TStatus.pending q)] ++ spre, ?_, ?_, ?_, ?_⟩
        · simp [runLoop, hj, ha]
        · simp [runLoop, hj, hb]
        · exact benign_iter_head retries TStatus.pending q hc
        · rw [countP_isPoll_iter_head, hd]
          omega
      | processing =>
        refine ⟨[Effect.pollEff retries,
          Effect.publishEff (PubEvent.statusEv TStatus.processing q)] ++ spre, ?_, ?_, ?_, ?_⟩
        · simp [runLoop, hj, ha]
        · simp [runLoop, hj, hb]
        · exact benign_iter_head retries TStatus.processing q hc
        · rw [countP_isPoll_iter_head, hd]
          omega

lemma runLoop_all_nonterminal (env : Env) :
    ∀ fuel retries, retries + fuel = MAX_RETRIES →
      (∀ j, retries ≤ j → j < MAX_RETRIES → ∃ s q, env.pollResult j = Except.ok ⟨s, q⟩ ∧
        s ≠ TStatus.completed ∧ s ≠ TStatus.failed) →
      (runLoop env fuel retries).2 = LoopOutcome.timeoutExit ∧
      (∀ e ∈ (runLoop env fuel retries).1, benign e = true) ∧
      (runLoop env fuel retries).1.countP isPoll = fuel := by
  intro fuel
  induction fuel with
  | zero =>
    intro retries h1 h2
    exact ⟨rfl, by simp [runLoop], by simp [runLoop]⟩
  | succ fuel ih =>
    intro retries h1 hall
    obtain ⟨s, q, hj, hs1, hs2⟩ := hall retries le_rfl (by omega)
    obtain ⟨ha, hb, hc⟩ := ih (retries + 1) (by omega) (fun j hj1 hj2 => hall j (by omega) hj2)
    cases s with
    | completed => exact absurd rfl hs1
    | failed => exact absurd rfl hs2
    | pending =>
      refine ⟨by simp [runLoop, hj, ha], ?_, ?_⟩
      · simp only [runLoop, hj]
        exact benign_iter_head retries TStatus.pending q hb
      · simp only [runLoop, hj]
        rw [countP_isPoll_iter_head, hc]
    | processing =>
      refine ⟨by simp [runLoop, hj, ha], ?_, ?_⟩
      · simp only [runLoop, hj]
        exact benign_iter_head retries TStatus.processing q hb
      · simp only [runLoop, hj]
        rw [countP_isPoll_iter_head, hc]

lemma runLoop_persisted (env : Env) :
    ∀ fuel retries,
      ((runLoop env fuel retries).2 = LoopOutcome.completedExit →
        persisted (runLoop env fuel retries).1 = [TStatus.completed] ∨
        persisted (runLoop env fuel retries).1 = [TStatus.failed]) ∧
      ((runLoop env fuel retries).2 = LoopOutcome.timeoutExit →
        persisted (runLoop env fuel retries).1 = []) ∧
      (∀ m, (runLoop env fuel retries).2 = LoopOutcome.thrown m →
        persisted (runLoop env fuel retries).1 = [] ∨
        persisted (runLoop env fuel retries).1 = [TStatus.completed]) := by
  intro fuel
  induction fuel with
  | zero =>
    intro retries
    exact ⟨fun h => by simp [runLoop] at h, fun _ => by simp [runLoop, persisted],
      fun m h => by simp [runLoop] at h⟩
  | succ fuel ih =>
    intro retries
    cases hp : env.pollResult retries with
    | error m =>
      exact ⟨fun h => by simp [runLoop, hp] at h,
        fun h => by simp [runLoop, hp] at h,
        fun m2 _ => Or.inl (by simp [runLoop, hp, persisted, persistOf])⟩
    | ok st =>
      obtain ⟨s, q⟩ := st
      have hpref : persisted [Effect.pollEff retries,
          Effect.publishEff (PubEvent.statusEv s q)] = [] := by
        simp [persisted, persistOf]
      cases s with
      | completed =>
        have hb := completedBranch_persisted env
        refine ⟨fun h => ?_, fun h => ?_, fun m2 h => ?_⟩
        · simp only [runLoop, hp] at h ⊢
          rw [persisted_append, hpref]
          exact Or.inl (by simpa using hb.1 h)
        · simp only [runLoop, hp] at h
          exact absurd h (by intro h2; exact hb.2.1 h2)
        · simp only [runLoop, hp] at h ⊢
          rw [persisted_append, hpref]
          simpa using hb.2.2 m2 h
      | failed =>
        have hb := failedBranch_persisted env
        refine ⟨fun h => ?_, fun h => ?_, fun m2 h => ?_⟩
        · simp only [runLoop, hp] at h ⊢
          rw [persisted_append, hpref]
          exact Or.inr (by simpa using hb.1 h)
        · simp only [runLoop, hp] at h
          exact absurd h (by intro h2; exact hb.2.1 h2)
        · simp only [runLoop, hp] at h ⊢
          rw [persisted_append, hpref]
          exact Or.inl (by simpa using hb.2.2 m2 h)
      | pending =>
        refine ⟨fun h => ?_, fun h => ?_, fun m2 h => ?_⟩
        · simp only [runLoop, hp] at h ⊢
          rw [persisted_append, hpref]
          simpa using (ih (retries + 1)).1 h
        · simp only [runLoop, hp] at h ⊢
          rw [persisted_append, hpref]
          simpa using (ih (retries + 1)).2.1 h
        · simp only [runLoop, hp] at h ⊢
          rw [persisted_append, hpref]
          simpa using (ih (retries + 1)).2.2 m2 h
      | processing =>
        refine ⟨fun h => ?_, fun h => ?_, fun m2 h => ?_⟩
        · simp only [runLoop, hp] at h ⊢
          rw [persisted_append, hpref]
          simpa using (ih (retries + 1)).1 h
        · simp only [runLoop, hp] at h ⊢
          rw [persisted_append, hpref]
          simpa using (ih (retries + 1)).2.1 h
        · simp only [runLoop, hp] at h ⊢
          rw [persisted_append, hpref]
          simpa using (ih (retries + 1)).2.2 m2 h

lemma processTask_eq_of_outcome (env : Env) :
    ((runLoop env MAX_RETRIES 0).2 = LoopOutcome.completedExit →
      processTask env = (runLoop env MAX_RETRIES 0).1) ∧
    ((runLoop env MAX_RETRIES 0).2 = LoopOutcome.timeoutExit →
      processTask env = (runLoop env MAX_RETRIES 0).1 ++ timeoutBranch env) ∧
    (∀ m, (runLoop env MAX_RETRIES 0).2 = LoopOutcome.thrown m →
      processTask env = (runLoop env MAX_RETRIES 0).1 ++ catchEffects env m) := by
  rcases hrl : runLoop env MAX_RETRIES 0 with ⟨es, out⟩
  cases out <;> simp [processTask, hrl]

/-- C1: every processTask run publishes exactly one terminal event,
task.completion or task.error: the trace ends with that single
terminal publish immediately followed by the stream close, no terminal
event is published before it, and nothing at all is published after
it. -/
theorem processTask_single_terminal_event (env : Env) :
    ∃ pre e, processTask env = pre ++ [Effect.publishEff e, Effect.closeEff] ∧
      isTerminalPub (Effect.publishEff e) = true ∧ pre.countP isTerminalPub = 0 := by
  have hs := runLoop_shape env MAX_RETRIES 0
  have hq := processTask_eq_of_outcome env
  rcases hrl : runLoop env MAX_RETRIES 0 with ⟨es, out⟩
  rw [hrl] at hs hq
  cases out with
  | completedExit =>
    have h2 : processTask env = es := hq.1 rfl
    rw [h2]
    exact hs.1 rfl
  | timeoutExit =>
    have hc : es.countP isTerminalPub = 0 := hs.2 (by simp)
    have h2 : processTask env = es ++ timeoutBranch env := hq.2.1 rfl
    rw [h2]
    exact terminalShape_append_left es hc (timeoutBranch_shape env)
  | thrown m =>
    have hc : es.countP isTerminalPub = 0 := hs.2 (by simp)
    have h2 : processTask env = es ++ catchEffects env m := hq.2.2 m rfl
    rw [h2]
    exact terminalShape_append_left es hc (catchEffects_shape env m)

/-- C2: when poll k (0-based, k below the 30-attempt budget) reports
completed after non-terminal polls, and the implementation fetch, the
store update and the file uploads succeed, processTask calls
getImplementation exactly once, persists the completed row with the
returned implementation, publishes exactly one terminal event, namely
the task.completion carrying the implementation and file list, and
closes the task's stream as its final effect. -/
theorem processTask_completed_path (env : Env) (k : Nat) (p : Option Nat) (r : ImplResult)
    (hk : k < MAX_RETRIES)
    (hpoll : env.pollResult k = Except.ok ⟨TStatus.completed, p⟩)
    (hpre : ∀ j, j < k → ∃ s q, env.pollResult j = Except.ok ⟨s, q⟩ ∧
      s ≠ TStatus.completed ∧ s ≠ TStatus.failed)
    (himpl : env.implResult = Except.ok r)
    (hupd : env.updateError (TaskUpdate.completedUpd r.implementation) = none)
    (hupl : ∀ f ∈ r.files.getD [], env.uploadError f = none) :
    (processTask env).countP isFetch = 1 ∧
    Effect.updateEff (TaskUpdate.completedUpd r.implementation) true ∈ processTask env ∧
    (processTask env).countP isTerminalPub = 1 ∧
    ∃ pre, processTask env = pre ++
      [Effect.publishEff (PubEvent.completionEv r.implementation r.files),
       Effect.closeEff] := by
  obtain ⟨spre, ha, hb, hben, hcnt⟩ := runLoop_reaches env k MAX_RETRIES 0 (by omega)
    (Nat.zero_le k) hk (fun j _ hj => hpre j hj)
  have hru : (runUploads env (r.files.getD [])).2 = none := runUploads_ok env _ hupl
  obtain ⟨m2, hm2⟩ : ∃ m2, MAX_RETRIES - k = m2 + 1 := ⟨MAX_RETRIES - k - 1, by omega⟩
  have hk1 : (runLoop env (MAX_RETRIES - k) k).1 =
      [Effect.pollEff k, Effect.publishEff (PubEvent.statusEv TStatus.completed p)]
        ++ ([Effect.fetchImplEff,
             Effect.updateEff (TaskUpdate.completedUpd r.implementation) true]
            ++ ((runUploads env (r.files.getD [])).1
            ++ [Effect.publishEff (PubEvent.completionEv r.implementation r.files),
                Effect.closeEff])) := by
    rw [hm2]
    simp [runLoop, hpoll, completedBranch, himpl, hupd, hru]
  have hk2 : (runLoop env (MAX_RETRIES - k) k).2 = LoopOutcome.completedExit := by
    rw [hm2]
    simp [runLoop, hpoll, completedBranch, himpl, hupd, hru]
  have hout : (runLoop env MAX_RETRIES 0).2 = LoopOutcome.completedExit := by rw [hb, hk2]
  have hfull : processTask env = spre ++ (runLoop env (MAX_RETRIES - k) k).1 := by
    rw [(processTask_eq_of_outcome env).1 hout, ha]
  have hsp1 : spre.countP isFetch = 0 :=
    countP_benign_zero hben (fun e he => benign_isFetch he)
  have hsp2 : spre.countP isTerminalPub = 0 :=
    countP_benign_zero hben (fun e he => benign_isTerminalPub he)
  have hue1 : (runUploads env (r.files.getD [])).1.countP isFetch = 0 :=
    runUploads_countP env _ (fun _ _ => rfl)
  have hue2 : (runUploads env (r.files.getD [])).1.countP isTerminalPub = 0 :=
    runUploads_countP env _ (fun _ _ => rfl)
  rw [hfull, hk1]
  refine ⟨?_, by simp, ?_, ?_⟩
  · simp [List.countP_append, List.countP_cons, isFetch, hsp1, hue1]
  · simp [List.countP_append, List.countP_cons, isTerminalPub, hsp2, hue2]
  · exact ⟨spre ++ [Effect.pollEff k,
        Effect.publishEff (PubEvent.statusEv TStatus.completed p)]
      ++ [Effect.fetchImplEff, Effect.updateEff (TaskUpdate.completedUpd r.implementation) true]
      ++ (runUploads env (r.files.getD [])).1, by simp⟩

/-- C2 witness: backend completed on the first poll, one file,
everything succeeding. -/
theorem processTask_completed_path_witness :
    (Env.mk (fun _ => Except.ok ⟨TStatus.completed, some 100⟩)
        (Except.ok ⟨"code", some [⟨"main.ts", "body"⟩]⟩)
        (fun _ => none) (fun _ => none)).pollResult 0
      = Except.ok ⟨TStatus.completed, some 100⟩ ∧
    (processTask (Env.mk (fun _ => Except.ok ⟨TStatus.completed, some 100⟩)
        (Except.ok ⟨"code", some [⟨"main.ts", "body"⟩]⟩)
        (fun _ => none) (fun _ => none))).countP isFetch = 1 ∧
    (processTask (Env.mk (fun _ => Except.ok ⟨TStatus.completed, some 100⟩)
        (Except.ok ⟨"code", some [⟨"main.ts", "body"⟩]⟩)
        (fun _ => none) (fun _ => none))).countP isTerminalPub = 1 := by
  have h := processTask_completed_path
    (Env.mk (fun _ => Except.ok ⟨TStatus.completed, some 100⟩)
      (Except.ok ⟨"code", some [⟨"main.ts", "body"⟩]⟩)
      (fun _ => none) (fun _ => none))
    0 (some 100) ⟨"code", some [⟨"main.ts", "body"⟩]⟩
    (by decide) rfl
    (fun j hj => absurd hj (Nat.not_lt_zero j))
    rfl rfl
    (fun f _ => rfl)
  exact ⟨rfl, h.1, h.2.2.1⟩

/-- C3: when every one of the 30 polls reports a non-terminal status
and the timeout update is accepted by the store, processTask persists
the failed row with error code timeout, publishes exactly one terminal
event, namely the timeout task.error, performs exactly MAX_RETRIES
polls, and closes the stream as its final effect. -/
theorem processTask_timeout_path (env : Env)
    (hall : ∀ j, j < MAX_RETRIES → ∃ s q, env.pollResult j = Except.ok ⟨s, q⟩ ∧
      s ≠ TStatus.completed ∧ s ≠ TStatus.failed)
    (hupd : env.updateError (TaskUpdate.failedUpd "timeout" "Task processing timed out")
      = none) :
    Effect.updateEff (TaskUpdate.failedUpd "timeout" "Task processing timed out") true
      ∈ processTask env ∧
    (processTask env).countP isTerminalPub = 1 ∧
    (processTask env).countP isPoll = MAX_RETRIES ∧
    ∃ pre, processTask env = pre ++
      [Effect.publishEff (PubEvent.errorEv "timeout" "Task processing timed out"),
       Effect.closeEff] := by
  obtain ⟨ha, hb, hc⟩ := runLoop_all_nonterminal env MAX_RETRIES 0 (by omega)
    (fun j _ hj => hall j hj)
  have hfull : processTask env = (runLoop env MAX_RETRIES 0).1 ++ timeoutBranch env :=
    (processTask_eq_of_outcome env).2.1 ha
  have htb : timeoutBranch env =
      [Effect.updateEff (TaskUpdate.failedUpd "timeout" "Task processing timed out") true,
       Effect.publishEff (PubEvent.errorEv "timeout" "Task processing timed out"),
       Effect.closeEff] := by simp [timeoutBranch, hupd]
  have hsp : (runLoop env MAX_RETRIES 0).1.countP isTerminalPub = 0 :=
    countP_benign_zero hb (fun e he => benign_isTerminalPub he)
  rw [hfull, htb]
  refine ⟨by simp, ?_, ?_, ?_⟩
  · simp [List.countP_append, List.countP_cons, isTerminalPub, hsp]
  · simp [List.countP_append, List.countP_cons, isPoll, hc]
  · exact ⟨(runLoop env MAX_RETRIES 0).1 ++
      [Effect.updateEff (TaskUpdate.failedUpd "timeout" "Task processing timed out") true],
      by simp⟩

/-- C3 witness: a backend stuck at processing for every poll. -/
theorem processTask_timeout_path_witness :
    Effect.updateEff (TaskUpdate.failedUpd "timeout" "Task processing timed out") true
      ∈ processTask (Env.mk (fun _ => Except.ok ⟨TStatus.processing, none⟩)
        (Except.error "never fetched") (fun _ => none) (fun _ => none)) ∧
    (processTask (Env.mk (fun _ => Except.ok ⟨TStatus.processing, none⟩)
        (Except.error "never fetched") (fun _ => none) (fun _ => none))).countP isPoll
      = MAX_RETRIES := by
  have h := processTask_timeout_path
    (Env.mk (fun _ => Except.ok ⟨TStatus.processing, none⟩)
      (Except.error "never fetched") (fun _ => none) (fun _ => none))
    (fun j _ => ⟨TStatus.processing, none, rfl, by decide, by decide⟩)
    rfl
  exact ⟨h.1, h.2.2.1⟩

/-- C10: a getTaskStatus throw on poll k (after non-terminal polls)
aborts the whole run: polling stops at k + 1 calls (the TimedOut
branch never runs and the only task update is the catch branch's
background_processing_error failure), one task.error event carrying
that code is the only terminal event, and the stream is closed. -/
theorem processTask_poll_error_aborts (env : Env) (k : Nat) (m : String)
    (hk : k < MAX_RETRIES)
    (hpoll : env.pollResult k = Except.error m)
    (hpre : ∀ j, j < k → ∃ s q, env.pollResult j = Except.ok ⟨s, q⟩ ∧
      s ≠ TStatus.completed ∧ s ≠ TStatus.failed)
    (hupd : env.updateError (TaskUpdate.failedUpd "background_processing_error" m) = none) :
    (processTask env).countP isPoll = k + 1 ∧
    Effect.updateEff (TaskUpdate.failedUpd "background_processing_error" m) true
      ∈ processTask env ∧
    (∀ u b, Effect.updateEff u b ∈ processTask env →
      u = TaskUpdate.failedUpd "background_processing_error" m) ∧
    (processTask env).countP isTerminalPub = 1 ∧
    ∃ pre, processTask env = pre ++
      [Effect.publishEff (PubEvent.errorEv "background_processing_error" m),
       Effect.closeEff] := by
  obtain ⟨spre, ha, hb, hben, hcnt⟩ := runLoop_reaches env k MAX_RETRIES 0 (by omega)
    (Nat.zero_le k) hk (fun j _ hj => hpre j hj)
  obtain ⟨m2, hm2⟩ : ∃ m2, MAX_RETRIES - k = m2 + 1 := ⟨MAX_RETRIES - k - 1, by omega⟩
  have hk1 : (runLoop env (MAX_RETRIES - k) k).1 = [Effect.pollEff k] := by
    rw [hm2]; simp [runLoop, hpoll]
  have hk2 : (runLoop env (MAX_RETRIES - k) k).2 = LoopOutcome.thrown m := by
    rw [hm2]; simp [runLoop, hpoll]
  have hout : (runLoop env MAX_RETRIES 0).2 = LoopOutcome.thrown m := by rw [hb, hk2]
  have hca : catchEffects env m =
      [Effect.updateEff (TaskUpdate.failedUpd "background_processing_error" m) true,
       Effect.publishEff (PubEvent.errorEv "background_processing_error" m),
       Effect.closeEff] := by simp [catchEffects, hupd]
  have hfull : processTask env = (spre ++ [Effect.pollEff k]) ++ catchEffects env m := by
    rw [(processTask_eq_of_outcome env).2.2 m hout, ha, hk1]
  have hsp : spre.countP isTerminalPub = 0 :=
    countP_benign_zero hben (fun e he => benign_isTerminalPub he)
  rw [hfull, hca]
  refine ⟨?_, by simp, ?_, ?_, ?_⟩
  · simp [List.countP_append, List.countP_cons, isPoll, hcnt]
  · intro u b hm3
    rcases List.mem_append.mp hm3 with hm4 | hm4
    · rcases List.mem_append.mp hm4 with hm5 | hm5
      · have hbe := hben _ hm5
        simp [benign] at hbe
      · rcases List.mem_cons.mp hm5 with hm6 | hm6
        · exact absurd hm6 (by simp)
        · exact absurd hm6 (List.not_mem_nil _)
    · rcases List.mem_cons.mp hm4 with hm5 | hm5
      · simp only [Effect.updateEff.injEq] at hm5
        exact hm5.1
      · rcases List.mem_cons.mp hm5 with hm6 | hm6
        · exact absurd hm6 (by simp)
        · rcases List.mem_cons.mp hm6 with hm7 | hm7
          · exact absurd hm7 (by simp)
          · exact absurd hm7 (List.not_mem_nil _)
  · simp [List.countP_append, List.countP_cons, isTerminalPub, hsp]
  · exact ⟨(spre ++ [Effect.pollEff k]) ++
      [Effect.updateEff (TaskUpdate.failedUpd "background_processing_error" m) true],
      by simp⟩

/-- C10 witness: one healthy processing poll, then a poll whose
request_failed error escapes; the run ends after 2 polls with only the
catch branch's persistence and one terminal task.error. -/
theorem processTask_poll_error_aborts_witness :
    (Env.mk (fun i => if i = 0 then Except.ok ⟨TStatus.processing, none⟩
        else Except.error "Failed to communicate with bolt.diy: socket hang up")
      (Except.error "never fetched") (fun _ => none) (fun _ => none)).pollResult 1
      = Except.error "Failed to communicate with bolt.diy: socket hang up" ∧
    (processTask (Env.mk (fun i => if i = 0 then Except.ok ⟨TStatus.processing, none⟩
        else Except.error "Failed to communicate with bolt.diy: socket hang up")
      (Except.error "never fetched") (fun _ => none) (fun _ => none))).countP isPoll = 2 ∧
    Effect.updateEff (TaskUpdate.failedUpd "background_processing_error"
        "Failed to communicate with bolt.diy: socket hang up") true
      ∈ processTask (Env.mk (fun i => if i = 0 then Except.ok ⟨TStatus.processing, none⟩
        else Except.error "Failed to communicate with bolt.diy: socket hang up")
      (Except.error "never fetched") (fun _ => none) (fun _ => none)) := by
  have h := processTask_poll_error_aborts
    (Env.mk (fun i => if i = 0 then Except.ok ⟨TStatus.processing, none⟩
        else Except.error "Failed to communicate with bolt.diy: socket hang up")
      (Except.error "never fetched") (fun _ => none) (fun _ => none))
    1 "Failed to communicate with bolt.diy: socket hang up"
    (by decide) rfl
    (fun j hj => by
      have hj0 : j = 0 := by omega
      subst hj0
      exact ⟨TStatus.processing, none, rfl, by decide, by decide⟩)
    rfl
  exact ⟨rfl, h.1, h.2.1⟩

/-- The status monotonicity property claimed by the specification for
the orchestration core's writes: once a terminal status (completed or
failed) has been persisted, every later persisted status equals it. -/
def monotonePersistB : List TStatus → Bool
  | [] => true
  | s :: rest =>
    (!(s == TStatus.completed || s == TStatus.failed) || rest.all (fun x => x == s)) &&
      monotonePersistB rest

/-- C5 counterexample: backend completes on the first poll, the
completed row is persisted, then the file upload throws; the catch
branch persists a failed row after the completed one, so the persisted
status sequence completed, failed violates the claimed monotonicity. -/
theorem persisted_monotonicity_counterexample :
    monotonePersistB (persisted (processTask
      (Env.mk (fun _ => Except.ok ⟨TStatus.completed, none⟩)
        (Except.ok ⟨"x", some [⟨"a", "b"⟩]⟩)
        (fun _ => none) (fun _ => some "disk full")))) = false := by
  decide

/-- C5 amended: the orchestration core persists only terminal
statuses, and the persisted sequence of one run is one of [],
[completed], [failed] or [completed, failed]: a persisted failed is
final (failed to anything else never occurs), but completed followed
by failed is possible, through the crash branch, when a step after the
completed persist (the file upload) throws. -/
theorem processTask_persisted_classification (env : Env) :
    persisted (processTask env) ∈
      [([] : List TStatus), [TStatus.completed], [TStatus.failed],
       [TStatus.completed, TStatus.failed]] := by
  have hp := runLoop_persisted env MAX_RETRIES 0
  have hq := processTask_eq_of_outcome env
  rcases hrl : runLoop env MAX_RETRIES 0 with ⟨es, out⟩
  rw [hrl] at hp hq
  cases out with
  | completedExit =>
    have h1 : processTask env = es := hq.1 rfl
    rcases hp.1 rfl with h | h <;> simp [h1, h]
  | timeoutExit =>
    have h1 : processTask env = es ++ timeoutBranch env := hq.2.1 rfl
    have h2 : persisted es = [] := hp.2.1 rfl
    rcases timeoutBranch_persisted env with h | h <;>
      simp [h1, persisted_append, h2, h]
  | thrown m =>
    have h1 : processTask env = es ++ catchEffects env m := hq.2.2 m rfl
    rcases hp.2.2 m rfl with h2 | h2 <;>
      rcases catchEffects_persisted env m with h3 | h3 <;>
      simp [h1, persisted_append, h2, h3]

end BoltDiy
